import Mathlib

/-!
Verification of the gallery upload lifecycle of the ArcemUsaConstruction
repository.

The embedded code is the client-side gallery management logic:
`ProjectGalleryManager` (pending item store, reconciliation/save engine,
cleanup coordinator, order manager) and `BlogGalleryManager`
(`client/src/components/admin/BlogGalleryManager.tsx`).  JavaScript arrays
become Lean lists, `localStorage` becomes an explicit `Option` mirror field,
remote calls become explicit logs of issued requests, and asynchronous
failures become explicit oracles.
-/

namespace ArcemGallery

/-- `PendingImage` from `ProjectGalleryManager`: an uploaded file not yet
persisted to the gallery table. -/
structure PendingImage where
  url : String
  caption : String
  displayOrder : Int
deriving DecidableEq, Repr

/-- A persisted `ProjectGallery` row as the client sees it (`id`, `imageUrl`,
`caption`, nullable `displayOrder`, `isFeature`). -/
structure GalleryEntry where
  id : Nat
  imageUrl : String
  caption : String
  displayOrder : Option Int
  isFeature : Bool
deriving DecidableEq, Repr

/-- `MAX_GALLERY_IMAGES` constant of `ProjectGalleryManager`. -/
def MAX_GALLERY_IMAGES : Nat := 10

/-- URL normalization used by the save dedup filter:
`url.split('?')[0].trim()` — the part before the first `?`, leading and
trailing whitespace removed (spelled on the character list so that it
evaluates inside the kernel). -/
def normalizeUrl (u : String) : String :=
  { data := ((((u.data.takeWhile (fun c => c != '?')).dropWhile
      Char.isWhitespace).reverse.dropWhile Char.isWhitespace).reverse) }

/-- JavaScript `Math.max(...l)` for the nonempty lists this code applies it
to (the `[]` case is unreachable in the source uses). -/
def listMax : List Int → Int
  | [] => 0
  | a :: rest => rest.foldl max a

/-- `getNextOrderValue` of `ProjectGalleryManager`: next `displayOrder` for a
new image.  Persisted orders (with `null` read as `0`) take precedence; the
pending orders are consulted only when the persisted gallery is empty. -/
def getNextOrderValue (gallery : List GalleryEntry) (pending : List PendingImage) : Int :=
  if gallery.length > 0 then
    listMax (gallery.map (fun image => (image.displayOrder).getD 0)) + 1
  else if pending.length > 0 then
    listMax (pending.map (fun image => image.displayOrder)) + 1
  else
    1

/-- The pending entries built from a batch of uploaded URLs in
`handleFileUpload`: caption `Project image ⟨idx+1⟩` and display order
`nextOrder + idx`. -/
def mkNewPendingImages (urls : List String) (nextOrder : Int) : List PendingImage :=
  urls.enum.map (fun p =>
    { url := p.2
      caption := "Project image " ++ toString (p.1 + 1)
      displayOrder := nextOrder + p.1 })

/-- Observable outcome of `handleFileUpload`: the updated pending list (also
written to the localStorage mirror), the number of images admitted (the
count reported by the quota toast), and whether the max-images warning was
raised. -/
structure UploadResult where
  pending : List PendingImage
  admitted : Nat
  warned : Bool
deriving DecidableEq, Repr

/-- `handleFileUpload` of `ProjectGalleryManager`: admits a batch of uploaded
URLs into the pending list, capping at `MAX_GALLERY_IMAGES` counting both the
persisted gallery and the already-pending entries. -/
def handleFileUpload (gallery : List GalleryEntry) (pending : List PendingImage)
    (urls : List String) : UploadResult :=
  let currentImageCount := gallery.length + pending.length
  let totalAfterAdd := currentImageCount + urls.length
  if totalAfterAdd > MAX_GALLERY_IMAGES then
    let allowedToAdd := MAX_GALLERY_IMAGES - currentImageCount
    if allowedToAdd > 0 then
      let limitedUrls := urls.take allowedToAdd
      let nextOrder := getNextOrderValue gallery pending
      let newPendingImages := mkNewPendingImages limitedUrls nextOrder
      { pending := pending ++ newPendingImages
        admitted := allowedToAdd
        warned := false }
    else
      { pending := pending, admitted := 0, warned := true }
  else
    let nextOrder := getNextOrderValue gallery pending
    let newPendingImages := mkNewPendingImages urls nextOrder
    { pending := pending ++ newPendingImages
      admitted := urls.length
      warned := false }

/-- Client-visible state that `saveGalleryImages` reads and writes: the
in-memory pending list, the localStorage mirror (`none` when the key is
absent), and the remote persisted gallery (ground truth fetched at save
time, and extended by each successful persist call). -/
structure GalleryState where
  pending : List PendingImage
  mirror : Option (List PendingImage)
  gallery : List GalleryEntry
deriving DecidableEq, Repr

/-- The first phase of `saveGalleryImages`: merge the in-memory pending list
with the localStorage mirror — adopt the mirror wholesale when memory is
empty, otherwise append the mirror entries whose exact URL is not already in
memory. -/
def loadPendingWithMirror (pending : List PendingImage)
    (mirror : Option (List PendingImage)) : List PendingImage :=
  match mirror with
  | none => pending
  | some parsedImages =>
    if parsedImages.length > 0 ∧ pending.length = 0 then
      parsedImages
    else if parsedImages.length > 0 ∧ pending.length > 0 then
      let existingUrls := pending.map (fun img => img.url)
      let newImages := parsedImages.filter (fun img => !(existingUrls.contains img.url))
      if newImages.length > 0 then pending ++ newImages else pending
    else
      pending

/-- The dedup filter of `saveGalleryImages`: the loaded pending entries whose
normalized URL does not match any normalized persisted URL — the truly new
entries to persist. -/
def newPendingToPersist (st : GalleryState) : List PendingImage :=
  (loadPendingWithMirror st.pending st.mirror).filter (fun pendingImg =>
    !((st.gallery.map (fun img => img.imageUrl)).any (fun existingUrl =>
      normalizeUrl existingUrl == normalizeUrl pendingImg.url)))

/-- Result of the sequential persist loop of `saveGalleryImages`: the entries
actually persisted (in order), the number of remote create calls issued, and
whether the loop ran to completion (`ok = false` means a create call threw
and the loop aborted). -/
structure PersistOutcome where
  persisted : List PendingImage
  calls : Nat
  ok : Bool
deriving DecidableEq, Repr

/-- The persist loop of `saveGalleryImages`: entries with an empty URL are
skipped (`continue`), each other entry issues a create call; the oracle
`fails k` tells whether the `k`-th create call throws, which aborts the loop
(the error is rethrown). -/
def runPersists (fails : Nat → Bool) :
    List PendingImage → Nat → List PendingImage → PersistOutcome
  | [], k, acc => { persisted := acc, calls := k, ok := true }
  | p :: rest, k, acc =>
    if p.url = "" then
      runPersists fails rest k acc
    else if fails k then
      { persisted := acc, calls := k, ok := false }
    else
      runPersists fails rest (k + 1) (acc ++ [p])

/-- The `GalleryEntry` row created by a successful `addProjectGalleryImage`
call for a pending image (the server-assigned id is irrelevant to the
claims and modelled as `0`). -/
def toGalleryEntry (p : PendingImage) : GalleryEntry :=
  { id := 0
    imageUrl := p.url
    caption := p.caption
    displayOrder := some p.displayOrder
    isFeature := false }

/-- Outcome of `saveGalleryImages`: `noop` (nothing pending), `deferred`
(new project: sessions committed, persistence postponed), `failed` (a
persist call threw after the listed entries were persisted; the error is
rethrown to the caller), or `saved` (all entries persisted and the listed
commit calls issued).  Each commit call carries `(sessionId, urls)`. -/
inductive SaveResult where
  | noop : SaveResult
  | deferred (commits : List (String × List String)) : SaveResult
  | failed (persisted : List PendingImage) : SaveResult
  | saved (persisted : List PendingImage) (commits : List (String × List String)) : SaveResult
deriving DecidableEq, Repr

/-- The entries persisted by a save outcome. -/
def SaveResult.persistedEntries : SaveResult → List PendingImage
  | .noop => []
  | .deferred _ => []
  | .failed l => l
  | .saved l _ => l

/-- The commit calls issued by a save outcome. -/
def SaveResult.commitCalls : SaveResult → List (String × List String)
  | .noop => []
  | .deferred c => c
  | .failed _ => []
  | .saved _ c => c

/-- `saveGalleryImages` of `ProjectGalleryManager` as a state transformer.
Steps: merge memory with the mirror; bail out when nothing is pending; for a
new project only commit the tracked sessions; otherwise fetch the persisted
gallery, filter the pending entries whose normalized URL already appears,
persist the rest sequentially (aborting on the first failure and leaving the
pending list and mirror untouched), then commit every tracked session with
the union of the in-memory pending URLs and the fetched gallery URLs, and
finally clear the pending list and its mirror. -/
def saveGalleryImages (st : GalleryState) (isNewProject : Bool)
    (uploadSessions : List String) (fails : Nat → Bool) :
    GalleryState × SaveResult :=
  let loadedPendingImages := loadPendingWithMirror st.pending st.mirror
  if loadedPendingImages.length = 0 then
    (st, .noop)
  else if isNewProject then
    let fileUrls := loadedPendingImages.map (fun img => img.url)
    (st, .deferred (uploadSessions.map (fun sid => (sid, fileUrls))))
  else
    let existingImageUrls := st.gallery.map (fun img => img.imageUrl)
    let outcome := runPersists fails (newPendingToPersist st) 0 []
    if outcome.ok then
      let allImageUrls := st.pending.map (fun img => img.url) ++ existingImageUrls
      let commits := uploadSessions.map (fun sid => (sid, allImageUrls))
      ({ pending := []
         mirror := none
         gallery := st.gallery ++ outcome.persisted.map toGalleryEntry },
       .saved outcome.persisted commits)
    else
      ({ st with gallery := st.gallery ++ outcome.persisted.map toGalleryEntry },
       .failed outcome.persisted)

/-- Observable outcome of `handleDeletePendingImage`: the updated pending
list and the cleanup request issued to `/api/files/cleanup`, if any, as
`(fileUrl, preserveUrls)`. -/
structure DeleteResult where
  pending : List PendingImage
  request : Option (String × List String)
deriving DecidableEq, Repr

/-- `handleDeletePendingImage` of `ProjectGalleryManager`: remove the
`index`-th pending entry from state; when its URL is present and not already
in the persisted gallery, issue a cleanup request for that file preserving
all persisted gallery URLs plus the other pending URLs. -/
def handleDeletePendingImage (gallery : List GalleryEntry)
    (pending : List PendingImage) (index : Nat) : DeleteResult :=
  let newPending := pending.eraseIdx index
  match pending[index]? with
  | none => { pending := newPending, request := none }
  | some pendingImage =>
    if pendingImage.url = "" then
      { pending := newPending, request := none }
    else
      let existingImageUrls := gallery.map (fun img => img.imageUrl)
      if existingImageUrls.contains pendingImage.url then
        { pending := newPending, request := none }
      else
        let otherPendingUrls :=
          (pending.enum.filter (fun p => p.1 ≠ index)).map (fun p => p.2.url)
        { pending := newPending
          request := some (pendingImage.url, existingImageUrls ++ otherPendingUrls) }

/-- The preserve set computed by the unmount cleanup effect of
`ProjectGalleryManager`: all persisted gallery URLs (JavaScript
`filter(Boolean)` drops empty strings) followed by all pending URLs.  Each
tracked session is cleaned up with this same set. -/
def projectUnmountCleanupPreserve (gallery : List GalleryEntry)
    (pending : List PendingImage) : List String :=
  (gallery.map (fun img => img.imageUrl)).filter (fun u => u != "")
    ++ pending.map (fun img => img.url)

/-- Modelled from the spec: the remote object-storage provider's
`cleanup(sessionId, preserveUrls)` deletes any file associated with the
session that is not in `preserveUrls`; the server-side implementation is not
among the client sources, so the set of deletable targets is taken from the
spec's description of the collaborator contract. -/
def cleanupDeletable (sessionFiles preserveUrls : List String) : List String :=
  sessionFiles.filter (fun u => !(preserveUrls.contains u))

/-- The sort key used by the reorder comparators: `displayOrder || 0`. -/
def orderKey (e : GalleryEntry) : Int :=
  (e.displayOrder).getD 0

/-- `moveImageOrderUp` of `ProjectGalleryManager`: among the persisted
entries with a non-null `displayOrder` strictly below `currentOrder`, pick
the one with the greatest order (sort descending, take the head) and issue
two independent order-update calls swapping the two values.  Returns the
list of `(id, newOrder)` update calls issued (empty when the gallery is
absent, `currentOrder` is null, or no lower entry exists). -/
def moveImageOrderUp (gallery : Option (List GalleryEntry)) (id : Nat)
    (currentOrder : Option Int) : List (Nat × Int) :=
  match gallery, currentOrder with
  | none, _ => []
  | some _, none => []
  | some g, some cur =>
    let higherImages :=
      (g.filter (fun img =>
        img.displayOrder.isSome && decide ((img.displayOrder).getD 0 < cur))).mergeSort
        (fun a b => decide (orderKey b ≤ orderKey a))
    match higherImages with
    | [] => []
    | targetImage :: _ => [(id, orderKey targetImage), (targetImage.id, cur)]

/-- `moveImageOrderDown` of `ProjectGalleryManager`: symmetric to
`moveImageOrderUp`, picking the least persisted order strictly above
`currentOrder` (sort ascending, take the head). -/
def moveImageOrderDown (gallery : Option (List GalleryEntry)) (id : Nat)
    (currentOrder : Option Int) : List (Nat × Int) :=
  match gallery, currentOrder with
  | none, _ => []
  | some _, none => []
  | some g, some cur =>
    let lowerImages :=
      (g.filter (fun img =>
        img.displayOrder.isSome && decide (cur < (img.displayOrder).getD 0))).mergeSort
        (fun a b => decide (orderKey a ≤ orderKey b))
    match lowerImages with
    | [] => []
    | targetImage :: _ => [(id, orderKey targetImage), (targetImage.id, cur)]

/-- Effect of a sequence of `PATCH /gallery/{id}` display-order updates on
the persisted gallery: each `(id, v)` call sets `displayOrder := v` on the
rows with that id. -/
def applyOrderUpdates (gallery : List GalleryEntry) (calls : List (Nat × Int)) :
    List GalleryEntry :=
  calls.foldl
    (fun g c => g.map (fun e =>
      if e.id = c.1 then { e with displayOrder := some c.2 } else e))
    gallery

end ArcemGallery

namespace ArcemBlog

/-- A persisted `BlogGallery` row as `BlogGalleryManager` sees it. -/
structure BlogGalleryEntry where
  imageUrl : String
  caption : Option String
deriving DecidableEq, Repr

/-- Component state of `BlogGalleryManager`: the tracked upload session (`""`
when none, as in the source's initial `useState('')`), the uploaded file
URLs of the current batch, the committed flag, the add-dialog flag, the
caption input, and the persisted blog gallery. -/
structure BlogState where
  uploadSession : String
  uploadedFiles : List String
  isCommitted : Bool
  addDialogOpen : Bool
  captionInput : String
  gallery : List BlogGalleryEntry
deriving DecidableEq, Repr

/-- Which code path issued a cleanup call: the dialog-close effect, the
unmount effect, or the error handler of `handleFileUploadComplete`. -/
inductive CleanupPath where
  | dialogClose : CleanupPath
  | unmountPath : CleanupPath
  | errorPath : CleanupPath
deriving DecidableEq, Repr

/-- One entry of the remote-call log: a `cleanupUploads` call (recording the
component state observed at the moment of issue) or a `commitUploads` call
(recording whether the remote commit succeeded). -/
inductive LogItem where
  | cleanup (path : CleanupPath) (sessionId : String) (preserve : List String)
      (filesAtIssue : List String) (committedAtIssue : Bool) : LogItem
  | commit (sessionId : String) (urls : List String) (ok : Bool) : LogItem
deriving DecidableEq, Repr

/-- The preserve set computed by `cleanupUncommittedFiles` of
`BlogGalleryManager`: all persisted blog-gallery URLs (JavaScript
`filter(Boolean)` drops empty strings). -/
def blogCleanupPreserve (gallery : List BlogGalleryEntry) : List String :=
  (gallery.map (fun img => img.imageUrl)).filter (fun u => u != "")

/-- The render-closure structure of `cleanupUncommittedFiles` of
`BlogGalleryManager`: the guard, the preserve set and the cleaned-up file
list are read from `snap`, the state captured by the render in which the
invoking closure was created, while the `setUploadedFiles([])` it performs
on success acts on the live state `cur`.  When a session is tracked, not
committed, and uploaded files exist (all judged on `snap`), a cleanup call
preserving the persisted gallery URLs of `snap` is issued; on success the
live uploaded-file list is cleared, on failure the live state is
unchanged. -/
def cleanupUncommittedFilesAt (snap cur : BlogState) (path : CleanupPath) (ok : Bool) :
    BlogState × List LogItem :=
  if snap.uploadSession ≠ "" ∧ snap.isCommitted = false ∧ snap.uploadedFiles.length > 0 then
    let call := LogItem.cleanup path snap.uploadSession (blogCleanupPreserve snap.gallery)
      snap.uploadedFiles snap.isCommitted
    if ok then ({ cur with uploadedFiles := [] }, [call]) else (cur, [call])
  else
    (cur, [])

/-- `cleanupUncommittedFiles` as invoked from a closure of the current
render (the dialog-close effect and the unmount destructor): the snapshot it
reads and the live state it writes coincide. -/
def cleanupUncommittedFiles (s : BlogState) (path : CleanupPath) (ok : Bool) :
    BlogState × List LogItem :=
  cleanupUncommittedFilesAt s s path ok

/-- The dialog-close cleanup effect of `BlogGalleryManager`: when the add
dialog is closed with a tracked, uncommitted session and uploaded files, run
`cleanupUncommittedFiles`.  The effect re-runs whenever its dependencies
change, so it is checked after every event. -/
def dialogCloseEffect (s : BlogState) (ok : Bool) : BlogState × List LogItem :=
  if s.addDialogOpen = false ∧ s.uploadSession ≠ "" ∧ s.isCommitted = false
      ∧ s.uploadedFiles.length > 0 then
    cleanupUncommittedFiles s .dialogClose ok
  else
    (s, [])

/-- The sequential `addGalleryImage` loop of `handleFileUploadComplete`:
each URL is inserted into the blog gallery with the caption input (`|| null`
turns the empty caption into null); `addOks` tells whether the `k`-th insert
succeeds, a failing insert throws and aborts the loop.  Returns the gallery
extended by the successful prefix and whether the loop completed. -/
def runBlogAdds (caption : String) :
    List String → List Bool → List BlogGalleryEntry → List BlogGalleryEntry × Bool
  | [], _, g => (g, true)
  | url :: rest, [], g =>
    runBlogAdds caption rest []
      (g ++ [{ imageUrl := url
               caption := if caption = "" then none else some caption }])
  | url :: rest, okv :: restOk, g =>
    if okv then
      runBlogAdds caption rest restOk
        (g ++ [{ imageUrl := url
                 caption := if caption = "" then none else some caption }])
    else
      (g, false)

/-- `handleFileUploadComplete` of `BlogGalleryManager` (array branch; the
single-string branch behaves identically on a one-element list), invoked
against the render state `s` captured by its closure: adopt a truthy
incoming session id, reset the committed flag, record the uploaded files,
insert each file into the gallery with the captured caption, then commit the
batch under `sessionId || uploadSession`.  A failing insert or a rejected
commit is caught and routed through the same render's
`cleanupUncommittedFiles` closure, whose guard, preserve set and file list
read the pre-handler snapshot `s` — the `setUploadSession`,
`setIsCommitted` and `setUploadedFiles` calls issued above do not rebind
that closure — while its `setUploadedFiles([])` acts on the live state.  On
success the caption is cleared and the dialog closed. -/
def handleFileUploadComplete (s : BlogState) (fileUrls : List String)
    (sessionId : Option String) (addOks : List Bool) (commitOk : Bool)
    (cleanupOk : Bool) : BlogState × List LogItem :=
  let truthySessionId : Option String := match sessionId with
    | some sid => if sid = "" then none else some sid
    | none => none
  let s1 := match truthySessionId with
    | some sid => { s with uploadSession := sid }
    | none => s
  let s2 := { s1 with isCommitted := false }
  let currentSessionId := (truthySessionId).getD s.uploadSession
  if fileUrls.length = 0 then
    ({ s2 with captionInput := "", addDialogOpen := false }, [])
  else
    let s3 := { s2 with uploadedFiles := fileUrls }
    let added := runBlogAdds s.captionInput fileUrls addOks s3.gallery
    let s4 := { s3 with gallery := added.1 }
    if added.2 then
      let commitCall := LogItem.commit currentSessionId fileUrls commitOk
      if commitOk then
        ({ s4 with isCommitted := true, captionInput := "", addDialogOpen := false },
         [commitCall])
      else
        let r := cleanupUncommittedFilesAt s s4 .errorPath cleanupOk
        (r.1, commitCall :: r.2)
    else
      cleanupUncommittedFilesAt s s4 .errorPath cleanupOk

/-- The user-visible events driving `BlogGalleryManager`: opening or closing
the add dialog, an upload batch completing (with its failure oracles), and
the component unmounting. -/
inductive BlogEvent where
  | openDialog : BlogEvent
  | closeDialog (cleanupOk : Bool) : BlogEvent
  | uploadComplete (fileUrls : List String) (sessionId : Option String)
      (addOks : List Bool) (commitOk : Bool) (cleanupOk : Bool) : BlogEvent
  | unmount (cleanupOk : Bool) : BlogEvent
deriving Repr

/-- One step of the `BlogGalleryManager` machine: apply the event's handler,
then run the dialog-close cleanup effect against the resulting state (the
effect fires on every render whose dependencies changed). -/
def blogStep (s : BlogState) (e : BlogEvent) : BlogState × List LogItem :=
  match e with
  | .openDialog =>
    ({ s with addDialogOpen := true }, [])
  | .closeDialog cleanupOk =>
    dialogCloseEffect { s with addDialogOpen := false } cleanupOk
  | .uploadComplete fileUrls sessionId addOks commitOk cleanupOk =>
    let r := handleFileUploadComplete s fileUrls sessionId addOks commitOk cleanupOk
    let r2 := dialogCloseEffect r.1 cleanupOk
    (r2.1, r.2 ++ r2.2)
  | .unmount cleanupOk =>
    cleanupUncommittedFiles s .unmountPath cleanupOk

/-- Run of the `BlogGalleryManager` machine over a list of events,
accumulating the log of remote calls in order. -/
def blogRun (s : BlogState) : List BlogEvent → BlogState × List LogItem
  | [] => (s, [])
  | e :: rest =>
    let r := blogStep s e
    let r2 := blogRun r.1 rest
    (r2.1, r.2 ++ r2.2)

/-- Decides the temporal property claimed of the blog manager: scanning the
log in order, no dialog-close or unmount cleanup call targets a session for
which a successful commit was previously logged. -/
def noCleanupAfterCommit (committedSessions : List String) : List LogItem → Bool
  | [] => true
  | .commit sid _ ok :: rest =>
    noCleanupAfterCommit (if ok then sid :: committedSessions else committedSessions) rest
  | .cleanup path sid _ _ _ :: rest =>
    if (path = CleanupPath.dialogClose ∨ path = CleanupPath.unmountPath)
        ∧ committedSessions.contains sid then
      false
    else
      noCleanupAfterCommit committedSessions rest

/-- The guard facts recorded at the moment a cleanup call is issued: a
session is tracked, the committed flag is down, and the uploaded-file list
is nonempty.  Commit calls carry no such obligation. -/
def cleanupGuarded : LogItem → Prop
  | .cleanup _ sid _ files comm => sid ≠ "" ∧ comm = false ∧ files ≠ []
  | .commit _ _ _ => True

end ArcemBlog

namespace ArcemGallery

/-- A persisted gallery holding eight entries, for the quota instance. -/
def galleryOf8 : List GalleryEntry :=
  (List.range 8).map (fun k =>
    { id := k
      imageUrl := "existing" ++ toString k
      caption := ""
      displayOrder := some (Int.ofNat k)
      isFeature := false })

/-- Five freshly uploaded URLs, for the quota instance. -/
def fiveUrls : List String := ["n1", "n2", "n3", "n4", "n5"]

/-- A one-entry persisted gallery with display order 1. -/
def galleryC5 : List GalleryEntry :=
  [{ id := 1, imageUrl := "g1", caption := "", displayOrder := some 1, isFeature := false }]

/-- A one-entry pending list with display order 5. -/
def pendingC5 : List PendingImage :=
  [{ url := "p", caption := "", displayOrder := 5 }]

/-- A one-entry persisted gallery whose image URL is `"g"`. -/
def galleryW : List GalleryEntry :=
  [{ id := 3, imageUrl := "g", caption := "cap", displayOrder := some 1, isFeature := false }]

/-- A two-entry pending list: a duplicate of the persisted URL `"g"` and a
fresh URL `"q"`. -/
def pendingW : List PendingImage :=
  [{ url := "g", caption := "", displayOrder := 2 },
   { url := "q", caption := "", displayOrder := 3 }]

/-- A one-entry persisted blog gallery whose image URL is `"b"`. -/
def blogGalleryW : List ArcemBlog.BlogGalleryEntry :=
  [{ imageUrl := "b", caption := none }]

/-- A save-time state in which the in-memory pending list was lost (empty)
while the localStorage mirror still holds one uncommitted image, and the
persisted gallery is empty. -/
def stC7 : GalleryState :=
  { pending := []
    mirror := some [{ url := "u", caption := "c", displayOrder := 1 }]
    gallery := [] }

/-- A save-time state with three pending images in memory, no mirror, and an
empty persisted gallery. -/
def stC2 : GalleryState :=
  { pending := [{ url := "a", caption := "", displayOrder := 1 },
                { url := "b", caption := "", displayOrder := 2 },
                { url := "c", caption := "", displayOrder := 3 }]
    mirror := none
    gallery := [] }

/-- A persisted entry whose URL differs from a pending URL only by its query
string. -/
def galleryEntryC3 : GalleryEntry :=
  { id := 7, imageUrl := "x?2", caption := "", displayOrder := some 1, isFeature := false }

/-- A save-time state whose single pending image and single persisted entry
share a normalized URL (they differ only by query string). -/
def stC3 : GalleryState :=
  { pending := [{ url := "x?1", caption := "", displayOrder := 1 }]
    mirror := none
    gallery := [galleryEntryC3] }

/-- A two-entry persisted gallery with display orders 2 and 5 and no entries
between them: entry A (id 10, order 2) and entry B (id 20, order 5). -/
def galleryC8 : List GalleryEntry :=
  [{ id := 10, imageUrl := "a", caption := "", displayOrder := some 2, isFeature := false },
   { id := 20, imageUrl := "b", caption := "", displayOrder := some 5, isFeature := false }]

end ArcemGallery

namespace ArcemBlog

/-- The initial `BlogGalleryManager` state: no session (`useState('')`), no
uploaded files, not committed, dialog closed, empty caption and gallery. -/
def blogStart : BlogState :=
  { uploadSession := ""
    uploadedFiles := []
    isCommitted := false
    addDialogOpen := false
    captionInput := ""
    gallery := [] }

/-- An event trace: a first upload under session `"s"` succeeds end to end
(its commit marks `"s"` committed), then a second upload without a fresh
session id fails at the insert — its catch-path cleanup is skipped, since
that render's closure still sees the session as committed — and finally the
user dismisses the dialog while the reset committed flag, the tracked
session `"s"` and the new uploaded file are live. -/
def blogEvsC9 : List BlogEvent :=
  [ .openDialog,
    .uploadComplete ["u1"] (some "s") [true] true true,
    .openDialog,
    .uploadComplete ["u2"] none [false] true false,
    .closeDialog true ]

end ArcemBlog

namespace ArcemGallery

lemma mkNewPendingImages_map_url (urls : List String) (n : Int) :
    (mkNewPendingImages urls n).map (fun p => p.url) = urls := by
  unfold mkNewPendingImages
  rw [List.map_map]
  exact List.enum_map_snd urls

lemma mkNewPendingImages_map_order (urls : List String) (n : Int) :
    (mkNewPendingImages urls n).map (fun p => p.displayOrder)
      = (List.range urls.length).map (fun (k : Nat) => n + (k : Int)) := by
  unfold mkNewPendingImages
  rw [List.map_map, ← List.enum_map_fst urls, List.map_map]
  rfl

/-- C4.  For every add of a batch of `n` uploaded URLs, exactly
`min n (10 - persistedCount - pendingCount)` entries are admitted to the
pending list, namely the first ones in batch order; in particular with 8
persisted entries and 5 uploads, exactly 2 are admitted and 3 (the batch
size minus the reported admitted count) are rejected. -/
theorem c4_quota_admission :
    (∀ (gallery : List GalleryEntry) (pending : List PendingImage) (urls : List String),
      (handleFileUpload gallery pending urls).admitted
          = min urls.length (MAX_GALLERY_IMAGES - (gallery.length + pending.length))
        ∧ (handleFileUpload gallery pending urls).pending.map (fun p => p.url)
          = pending.map (fun p => p.url)
            ++ urls.take (min urls.length (MAX_GALLERY_IMAGES - (gallery.length + pending.length))))
    ∧ (handleFileUpload galleryOf8 [] fiveUrls).admitted = 2
    ∧ fiveUrls.length - (handleFileUpload galleryOf8 [] fiveUrls).admitted = 3 := by
  refine ⟨fun gallery pending urls => ?_, by decide, by decide⟩
  unfold handleFileUpload MAX_GALLERY_IMAGES
  by_cases h1 : gallery.length + pending.length + urls.length > 10
  · by_cases h2 : 10 - (gallery.length + pending.length) > 0
    · have hmin : min urls.length (10 - (gallery.length + pending.length))
          = 10 - (gallery.length + pending.length) := by omega
      simp only [h1, h2, if_pos, if_true]
      rw [hmin]
      refine ⟨rfl, ?_⟩
      rw [List.map_append, mkNewPendingImages_map_url]
    · have hmin : min urls.length (10 - (gallery.length + pending.length)) = 0 := by omega
      simp only [h1, h2, if_pos, if_false]
      rw [hmin]
      simp
  · have hmin : min urls.length (10 - (gallery.length + pending.length))
        = urls.length := by omega
    simp only [h1, if_false]
    rw [hmin]
    refine ⟨rfl, ?_⟩
    rw [List.map_append, mkNewPendingImages_map_url, List.take_length]

/-- C5 counterexample.  With one persisted entry of display order 1 and one
pending entry of display order 5, adding one upload assigns the new entry
display order 2 (persisted max + 1), not 6 = max over both persisted and
pending orders plus 1 as the claim states. -/
theorem c5_counterexample :
    ((handleFileUpload galleryC5 pendingC5 ["x"]).pending[1]?).map
        (fun p => p.displayOrder) = some 2
    ∧ ¬ (((handleFileUpload galleryC5 pendingC5 ["x"]).pending[1]?).map
        (fun p => p.displayOrder)
      = some (listMax (galleryC5.map (fun e => (e.displayOrder).getD 0)
            ++ pendingC5.map (fun p => p.displayOrder)) + 1)) := by
  decide

/-- C5 (amended).  For every add of new pending entries, the first new
entry's displayOrder equals the maximum over the persisted entries'
displayOrder values (null read as 0) plus 1 when any persisted entry exists;
only when the persisted gallery is empty is the maximum over the pending
entries' orders (plus 1) used, and 1 when both are empty.  Subsequent
entries in the batch increment by 1 each. -/
theorem c5_amended_order_assignment (gallery : List GalleryEntry)
    (pending : List PendingImage) (urls : List String) :
    ((handleFileUpload gallery pending urls).pending.drop pending.length).map
        (fun p => p.displayOrder)
      = (List.range (handleFileUpload gallery pending urls).admitted).map
          (fun (k : Nat) =>
            (if gallery.length > 0 then
              listMax (gallery.map (fun e => (e.displayOrder).getD 0))
            else if pending.length > 0 then
              listMax (pending.map (fun p => p.displayOrder))
            else 0) + 1 + (k : Int)) := by
  have hstart : getNextOrderValue gallery pending
      = (if gallery.length > 0 then
          listMax (gallery.map (fun e => (e.displayOrder).getD 0))
        else if pending.length > 0 then
          listMax (pending.map (fun p => p.displayOrder))
        else 0) + 1 := by
    unfold getNextOrderValue
    split_ifs <;> ring
  unfold handleFileUpload MAX_GALLERY_IMAGES
  by_cases h1 : gallery.length + pending.length + urls.length > 10
  · by_cases h2 : 10 - (gallery.length + pending.length) > 0
    · simp only [h1, h2, if_pos, if_true]
      rw [List.drop_left, mkNewPendingImages_map_order, List.length_take]
      have hlen : min (10 - (gallery.length + pending.length)) urls.length
          = 10 - (gallery.length + pending.length) := by omega
      rw [hlen]
      exact List.map_congr_left (fun k _ => by rw [hstart])
    · simp only [h1, h2, if_pos, if_false]
      simp
  · simp only [h1, if_false]
    rw [List.drop_left, mkNewPendingImages_map_order]
    exact List.map_congr_left (fun k _ => by rw [hstart])

end ArcemGallery

namespace ArcemGallery

lemma runPersists_all_ok (l : List PendingImage) :
    ∀ (k : Nat) (acc : List PendingImage),
      (runPersists (fun _ => false) l k acc).ok = true := by
  induction l with
  | nil => intro k acc; rfl
  | cons p rest ih =>
    intro k acc
    unfold runPersists
    by_cases hu : p.url = ""
    · simp only [hu, if_pos, if_true]
      exact ih k acc
    · simp only [hu, if_neg, if_false, Bool.false_eq_true]
      exact ih (k + 1) (acc ++ [p])

lemma runPersists_mem (fails : Nat → Bool) (l : List PendingImage) :
    ∀ (k : Nat) (acc : List PendingImage) (q : PendingImage),
      q ∈ (runPersists fails l k acc).persisted → q ∈ acc ∨ q ∈ l := by
  induction l with
  | nil => intro k acc q hq; exact Or.inl hq
  | cons p rest ih =>
    intro k acc q hq
    unfold runPersists at hq
    by_cases hu : p.url = ""
    · simp only [hu, if_pos, if_true] at hq
      rcases ih k acc q hq with h | h
      · exact Or.inl h
      · exact Or.inr (List.mem_cons_of_mem p h)
    · simp only [hu, if_neg, if_false, Bool.false_eq_true] at hq
      by_cases hf : fails k
      · simp only [hf, if_pos, if_true] at hq
        exact Or.inl hq
      · simp only [hf, if_neg, if_false, Bool.false_eq_true] at hq
        rcases ih (k + 1) (acc ++ [p]) q hq with h | h
        · rcases List.mem_append.mp h with h2 | h2
          · exact Or.inl h2
          · exact Or.inr (by rw [List.mem_singleton.mp h2]; exact List.mem_cons_self p rest)
        · exact Or.inr (List.mem_cons_of_mem p h)

lemma runPersists_fail_at (fails : Nat → Bool) (l : List PendingImage) :
    ∀ (k i : Nat) (acc : List PendingImage),
      (∀ p ∈ l, p.url ≠ "") → i < l.length → fails (k + i) = true →
      (∀ j, j < i → fails (k + j) = false) →
      runPersists fails l k acc
        = { persisted := acc ++ l.take i, calls := k + i, ok := false } := by
  induction l with
  | nil =>
    intro k i acc _ hi _ _
    exact absurd hi (by simp)
  | cons p rest ih =>
    intro k i acc hurls hi hfi hbefore
    have hu : ¬ p.url = "" := hurls p (List.mem_cons_self p rest)
    unfold runPersists
    simp only [hu, if_neg, if_false]
    cases i with
    | zero =>
      have hk : fails k = true := by simpa using hfi
      simp [hk]
    | succ n =>
      have hk : fails k = false := by simpa using hbefore 0 (Nat.succ_pos n)
      simp only [hk, Bool.false_eq_true, if_false]
      have := ih (k + 1) n (acc ++ [p])
        (fun q hq => hurls q (List.mem_cons_of_mem p hq))
        (by simpa using Nat.lt_of_succ_lt_succ hi)
        (by have : k + 1 + n = k + (n + 1) := by omega
            rw [this]; exact hfi)
        (fun j hj => by
          have : k + 1 + j = k + (j + 1) := by omega
          rw [this]; exact hbefore (j + 1) (Nat.succ_lt_succ hj))
      rw [this]
      have harr : k + 1 + n = k + (n + 1) := by omega
      simp [List.take_succ_cons, harr]

/-- C2.  If, during save on an existing project, persisting the `i`-th of
the truly new entries fails (all earlier create calls having succeeded),
then exactly the entries before `i` are persisted, the loop aborts so no
later entry is persisted, the error is surfaced as a `failed` outcome, and
the in-memory pending list and the localStorage mirror are left exactly as
they were. -/
theorem c2_persist_failure_prefix_and_state_intact
    (st : GalleryState) (sessions : List String) (fails : Nat → Bool) (i : Nat)
    (hurls : ∀ p ∈ newPendingToPersist st, p.url ≠ "")
    (hi : i < (newPendingToPersist st).length)
    (hfi : fails i = true)
    (hbefore : ∀ j, j < i → fails j = false) :
    saveGalleryImages st false sessions fails
      = ({ st with gallery := st.gallery
            ++ ((newPendingToPersist st).take i).map toGalleryEntry },
         .failed ((newPendingToPersist st).take i)) := by
  have hloaded : ¬ (loadPendingWithMirror st.pending st.mirror).length = 0 := by
    have hle : (newPendingToPersist st).length
        ≤ (loadPendingWithMirror st.pending st.mirror).length :=
      List.length_filter_le _ _
    omega
  have hrun : runPersists fails (newPendingToPersist st) 0 []
      = { persisted := [] ++ (newPendingToPersist st).take i, calls := 0 + i, ok := false } :=
    runPersists_fail_at fails (newPendingToPersist st) 0 i []
      hurls hi (by simpa using hfi) (fun j hj => by simpa using hbefore j hj)
  unfold saveGalleryImages
  simp only [hloaded, if_neg, if_false, Bool.false_eq_true, hrun, List.nil_append]

/-- C3.  Save is idempotent with respect to persistence: a second save right
after a (fully successful) save persists zero additional entries; moreover
the dedup filter guarantees that a pending entry whose normalized URL
matches a normalized persisted URL of the freshly fetched gallery is never
persisted by save. -/
theorem c3_save_idempotent :
    (∀ (st : GalleryState) (isNewProject : Bool) (sessions : List String),
      ((saveGalleryImages
          (saveGalleryImages st isNewProject sessions (fun _ => false)).1
          isNewProject sessions (fun _ => false)).2).persistedEntries = [])
    ∧ (∀ (st : GalleryState) (sessions : List String) (fails : Nat → Bool)
        (p : PendingImage) (e : GalleryEntry),
        p ∈ loadPendingWithMirror st.pending st.mirror → e ∈ st.gallery →
        normalizeUrl e.imageUrl = normalizeUrl p.url →
        p ∉ ((saveGalleryImages st false sessions fails).2).persistedEntries) := by
  constructor
  · intro st isNewProject sessions
    by_cases hL : (loadPendingWithMirror st.pending st.mirror).length = 0
    · simp only [saveGalleryImages, hL, if_pos, if_true]
      simp [SaveResult.persistedEntries, saveGalleryImages, hL]
    · cases isNewProject with
      | true =>
        simp only [saveGalleryImages, hL, if_neg, if_false, if_true]
        simp [SaveResult.persistedEntries, saveGalleryImages, hL]
      | false =>
        have hok : (runPersists (fun _ => false) (newPendingToPersist st) 0 []).ok = true :=
          runPersists_all_ok (newPendingToPersist st) 0 []
        simp only [saveGalleryImages, hL, if_neg, if_false, Bool.false_eq_true, hok, if_pos,
          if_true]
        simp [saveGalleryImages, loadPendingWithMirror, SaveResult.persistedEntries]
  · intro st sessions fails p e hp he hnorm hmem
    have hpersisted : p ∈ (runPersists fails (newPendingToPersist st) 0 []).persisted := by
      by_cases hL : (loadPendingWithMirror st.pending st.mirror).length = 0
      · simp only [saveGalleryImages, hL, if_pos, if_true] at hmem
        simp [SaveResult.persistedEntries] at hmem
      · simp only [saveGalleryImages, hL, if_neg, if_false, Bool.false_eq_true] at hmem
        by_cases hok : (runPersists fails (newPendingToPersist st) 0 []).ok = true
        · simpa [hok, SaveResult.persistedEntries] using hmem
        · simp only [Bool.not_eq_true] at hok
          simpa [hok, SaveResult.persistedEntries] using hmem
    have hpnew : p ∈ newPendingToPersist st := by
      rcases runPersists_mem fails (newPendingToPersist st) 0 [] p hpersisted with h | h
      · exact absurd h (List.not_mem_nil p)
      · exact h
    have hfilter := (List.mem_filter.mp hpnew).2
    have hany : ((st.gallery.map (fun img => img.imageUrl)).any (fun existingUrl =>
        normalizeUrl existingUrl == normalizeUrl p.url)) = true := by
      refine List.any_eq_true.mpr ?_
      exact ⟨e.imageUrl, List.mem_map_of_mem (fun img => img.imageUrl) he,
        by rw [hnorm]; exact beq_self_eq_true _⟩
    rw [hany] at hfilter
    simp at hfilter

/-- C7.  Code bug evidence: at the state `stC7` (in-memory pending list
lost, mirror holding one image, empty persisted gallery) a fully successful
save persists the mirror-adopted image `"u"`, yet the commit call issued for
the tracked session carries an empty preserve set — `"u"`, although both
pending (loaded from the mirror) and freshly persisted, is missing from it,
because the commit loop reads the stale in-memory `pendingImages` instead of
`loadedPendingImages`. -/
theorem c7_commit_preserve_bug :
    (saveGalleryImages stC7 false ["s"] (fun _ => false)).2
        = .saved [{ url := "u", caption := "c", displayOrder := 1 }] [("s", [])]
    ∧ ((saveGalleryImages stC7 false ["s"] (fun _ => false)).2).commitCalls.all
        (fun c => !(c.2.contains "u")) = true
    ∧ "u" ∈ (loadPendingWithMirror stC7.pending stC7.mirror).map (fun p => p.url)
    ∧ "u" ∈ (((saveGalleryImages stC7 false ["s"] (fun _ => false)).2).persistedEntries).map
        (fun p => p.url) := by
  decide

end ArcemGallery

namespace ArcemGallery

lemma mem_projectUnmountCleanupPreserve_of_persisted
    (gallery : List GalleryEntry) (pending : List PendingImage) (u : String)
    (hne : u ≠ "") (hu : u ∈ gallery.map (fun e => e.imageUrl)) :
    u ∈ projectUnmountCleanupPreserve gallery pending := by
  unfold projectUnmountCleanupPreserve
  refine List.mem_append.mpr (Or.inl ?_)
  refine List.mem_filter.mpr ⟨hu, ?_⟩
  simpa using hne

lemma not_mem_cleanupDeletable (sessionFiles preserveUrls : List String)
    (u : String) (hu : u ∈ preserveUrls) :
    u ∉ cleanupDeletable sessionFiles preserveUrls := by
  intro hmem
  have := (List.mem_filter.mp hmem).2
  simp [hu] at this

/-- C1.  Every cleanup call issued on unmount of `ProjectGalleryManager`
carries a preserve set containing every (nonempty) URL of the persisted
gallery and every pending URL, and every cleanup call issued by
`BlogGalleryManager` (dialog dismissal or unmount, whose pending list is
always empty) carries a preserve set containing every (nonempty) persisted
URL; consequently no such persisted URL is ever a deletable target of the
cleanup operation, whatever files the session holds. -/
theorem c1_cleanup_preserve_safety :
    (∀ (gallery : List GalleryEntry) (pending : List PendingImage) (u : String),
      (∀ e ∈ gallery, e.imageUrl ≠ "") →
      (u ∈ gallery.map (fun e => e.imageUrl) ∨ u ∈ pending.map (fun p => p.url)) →
      u ∈ projectUnmountCleanupPreserve gallery pending)
    ∧ (∀ (gallery : List GalleryEntry) (pending : List PendingImage)
        (sessionFiles : List String) (u : String),
        (∀ e ∈ gallery, e.imageUrl ≠ "") →
        u ∈ gallery.map (fun e => e.imageUrl) →
        u ∉ cleanupDeletable sessionFiles (projectUnmountCleanupPreserve gallery pending))
    ∧ (∀ (bg : List ArcemBlog.BlogGalleryEntry) (sessionFiles : List String) (u : String),
        (∀ e ∈ bg, e.imageUrl ≠ "") →
        u ∈ bg.map (fun e => e.imageUrl) →
        u ∈ ArcemBlog.blogCleanupPreserve bg
          ∧ u ∉ cleanupDeletable sessionFiles (ArcemBlog.blogCleanupPreserve bg)) := by
  have hproj : ∀ (gallery : List GalleryEntry) (pending : List PendingImage) (u : String),
      (∀ e ∈ gallery, e.imageUrl ≠ "") →
      (u ∈ gallery.map (fun e => e.imageUrl) ∨ u ∈ pending.map (fun p => p.url)) →
      u ∈ projectUnmountCleanupPreserve gallery pending := by
    intro gallery pending u hgal hu
    rcases hu with hu | hu
    · rcases List.mem_map.mp hu with ⟨e, he, rfl⟩
      exact mem_projectUnmountCleanupPreserve_of_persisted gallery pending _ (hgal e he) hu
    · exact List.mem_append.mpr (Or.inr hu)
  have hblog : ∀ (bg : List ArcemBlog.BlogGalleryEntry) (u : String),
      (∀ e ∈ bg, e.imageUrl ≠ "") →
      u ∈ bg.map (fun e => e.imageUrl) →
      u ∈ ArcemBlog.blogCleanupPreserve bg := by
    intro bg u hgal hu
    rcases List.mem_map.mp hu with ⟨e, he, rfl⟩
    unfold ArcemBlog.blogCleanupPreserve
    refine List.mem_filter.mpr ⟨hu, ?_⟩
    simpa using hgal e he
  refine ⟨hproj, ?_, ?_⟩
  · intro gallery pending sessionFiles u hgal hu
    exact not_mem_cleanupDeletable _ _ _ (hproj gallery pending u hgal (Or.inl hu))
  · intro bg sessionFiles u hgal hu
    exact ⟨hblog bg u hgal hu,
      not_mem_cleanupDeletable _ _ _ (hblog bg u hgal hu)⟩

/-- Witness for C1 at concrete inputs: persisted URL `"g"` with a pending
duplicate and a fresh pending `"q"`, blog gallery URL `"b"`, sessions
holding those very files. -/
theorem c1_witness :
    ("g" ∈ projectUnmountCleanupPreserve galleryW pendingW)
    ∧ ("g" ∉ cleanupDeletable ["g", "x"] (projectUnmountCleanupPreserve galleryW pendingW))
    ∧ ("b" ∈ ArcemBlog.blogCleanupPreserve blogGalleryW
        ∧ "b" ∉ cleanupDeletable ["b"] (ArcemBlog.blogCleanupPreserve blogGalleryW)) :=
  ⟨c1_cleanup_preserve_safety.1 galleryW pendingW "g" (by decide) (Or.inl (by decide)),
   c1_cleanup_preserve_safety.2.1 galleryW pendingW ["g", "x"] "g" (by decide) (by decide),
   c1_cleanup_preserve_safety.2.2 blogGalleryW ["b"] "b" (by decide) (by decide)⟩

lemma le_fst_of_mem_enumFrom {α : Type} (l : List α) :
    ∀ (m : Nat) (q : Nat × α), q ∈ List.enumFrom m l → m ≤ q.1 := by
  induction l with
  | nil => intro m q hq; simp at hq
  | cons a rest ih =>
    intro m q hq
    rw [List.enumFrom_cons] at hq
    rcases List.mem_cons.mp hq with h | h
    · subst h; exact Nat.le_refl m
    · exact Nat.le_of_succ_le (ih (m + 1) q h)

lemma enumFrom_filter_ne_map_snd {α : Type} (l : List α) :
    ∀ (m i : Nat),
      ((List.enumFrom m l).filter (fun q => q.1 ≠ m + i)).map Prod.snd
        = l.eraseIdx i := by
  induction l with
  | nil => intro m i; rfl
  | cons a rest ih =>
    intro m i
    rw [List.enumFrom_cons]
    cases i with
    | zero =>
      have hm : ¬ ((m : Nat) ≠ m + 0) := by omega
      rw [List.filter_cons]
      simp only [hm, decide_eq_true_eq, decide_eq_false, if_false]
      have hall : (List.enumFrom (m + 1) rest).filter (fun q => q.1 ≠ m + 0)
          = List.enumFrom (m + 1) rest := by
        refine List.filter_eq_self.mpr ?_
        intro q hq
        have := le_fst_of_mem_enumFrom rest (m + 1) q hq
        simp only [decide_eq_true_eq]
        omega
      rw [hall, List.eraseIdx_cons_zero]
      exact List.enumFrom_map_snd (m + 1) rest
    | succ j =>
      have hm : (m : Nat) ≠ m + (j + 1) := by omega
      rw [List.filter_cons]
      simp only [decide_eq_true_eq]
      rw [if_pos hm, List.map_cons, List.eraseIdx_cons_succ]
      congr 1
      have hcong : (List.enumFrom (m + 1) rest).filter (fun q => decide (q.1 ≠ m + (j + 1)))
          = (List.enumFrom (m + 1) rest).filter (fun q => decide (q.1 ≠ (m + 1) + j)) := by
        refine List.filter_congr ?_
        intro q _
        have harith : m + (j + 1) = (m + 1) + j := by omega
        rw [harith]
      rw [hcong]
      exact ih (m + 1) j

lemma otherPendingUrls_eq_eraseIdx (pending : List PendingImage) (index : Nat) :
    ((pending.enum.filter (fun q => q.1 ≠ index)).map (fun q => q.2.url))
      = (pending.eraseIdx index).map (fun p => p.url) := by
  have h0 : (pending.enum.filter (fun q => q.1 ≠ 0 + index)).map Prod.snd
      = pending.eraseIdx index := enumFrom_filter_ne_map_snd pending 0 index
  simp only [Nat.zero_add] at h0
  calc ((pending.enum.filter (fun q => q.1 ≠ index)).map (fun q => q.2.url))
      = ((pending.enum.filter (fun q => q.1 ≠ index)).map Prod.snd).map
          (fun p => p.url) := by rw [List.map_map]; rfl
    _ = (pending.eraseIdx index).map (fun p => p.url) := by rw [h0]

/-- C6.  Deleting a single pending entry always removes it from the
in-memory pending list; when its URL also appears in the persisted gallery
no remote file-deletion request is issued at all, and when it does not (and
the URL is a real, nonempty URL) the issued request targets that URL with a
preserve set equal to all persisted gallery URLs plus the URLs of all the
other pending entries (the discarded index excluded). -/
theorem c6_delete_pending_safety
    (gallery : List GalleryEntry) (pending : List PendingImage) (index : Nat)
    (p : PendingImage) (hp : pending[index]? = some p) :
    ((handleDeletePendingImage gallery pending index).pending = pending.eraseIdx index)
    ∧ (p.url ∈ gallery.map (fun e => e.imageUrl) →
        (handleDeletePendingImage gallery pending index).request = none)
    ∧ (p.url ∉ gallery.map (fun e => e.imageUrl) → p.url ≠ "" →
        (handleDeletePendingImage gallery pending index).request
          = some (p.url, gallery.map (fun e => e.imageUrl)
              ++ (pending.eraseIdx index).map (fun q => q.url))) := by
  refine ⟨?_, ?_, ?_⟩
  · unfold handleDeletePendingImage
    rw [hp]
    dsimp only
    split_ifs <;> rfl
  · intro hmem
    have hcontains : (gallery.map (fun img => img.imageUrl)).contains p.url = true := by
      simpa using hmem
    unfold handleDeletePendingImage
    rw [hp]
    dsimp only
    by_cases hu : p.url = ""
    · rw [if_pos hu]
    · rw [if_neg hu, if_pos hcontains]
  · intro hmem hu
    have hcontains : ¬ ((gallery.map (fun img => img.imageUrl)).contains p.url = true) := by
      simpa using hmem
    unfold handleDeletePendingImage
    rw [hp]
    dsimp only
    rw [if_neg hu, if_neg hcontains]
    dsimp only
    rw [otherPendingUrls_eq_eraseIdx pending index]

/-- Witness for C6 at concrete inputs: deleting the pending duplicate of the
persisted URL `"g"` issues no request; deleting the fresh pending URL `"q"`
issues a request preserving the persisted URL and the other pending URL. -/
theorem c6_witness :
    ((handleDeletePendingImage galleryW pendingW 0).request = none)
    ∧ ((handleDeletePendingImage galleryW pendingW 1).request
        = some ("q", ["g", "g"])) :=
  ⟨(c6_delete_pending_safety galleryW pendingW 0
      { url := "g", caption := "", displayOrder := 2 } (by decide)).2.1 (by decide),
   by
    have h := (c6_delete_pending_safety galleryW pendingW 1
      { url := "q", caption := "", displayOrder := 3 } (by decide)).2.2
      (by decide) (by decide)
    simpa using h⟩

end ArcemGallery

namespace ArcemGallery

/-- Witness for C2: three pending images, the second create call fails:
exactly the first entry is persisted, the outcome is `failed`, and the
pending list and mirror of `stC2` are untouched. -/
theorem c2_witness :
    saveGalleryImages stC2 false [] (fun k => decide (k = 1))
      = ({ stC2 with gallery := stC2.gallery
            ++ ((newPendingToPersist stC2).take 1).map toGalleryEntry },
         .failed ((newPendingToPersist stC2).take 1)) :=
  c2_persist_failure_prefix_and_state_intact stC2 [] (fun k => decide (k = 1)) 1
    (by decide) (by decide) (by decide)
    (fun j hj => by
      have hj0 : j = 0 := by omega
      subst hj0
      rfl)

/-- Witness for C3: a pending image differing from a persisted one only by
query string is never persisted by save. -/
theorem c3_witness :
    ({ url := "x?1", caption := "", displayOrder := 1 } : PendingImage)
      ∉ ((saveGalleryImages stC3 false [] (fun _ => false)).2).persistedEntries :=
  c3_save_idempotent.2 stC3 [] (fun _ => false)
    { url := "x?1", caption := "", displayOrder := 1 }
    galleryEntryC3 (by decide) (by decide) (by decide)

lemma mergeSort_desc_head (l : List GalleryEntry) (A : GalleryEntry)
    (hA : A ∈ l)
    (hmax : ∀ e ∈ l, orderKey e ≤ orderKey A)
    (huniq : ∀ e ∈ l, orderKey e = orderKey A → e = A) :
    (l.mergeSort (fun x y => decide (orderKey y ≤ orderKey x))).head? = some A := by
  have hperm := List.mergeSort_perm l (fun x y => decide (orderKey y ≤ orderKey x))
  have hsorted := @List.sorted_mergeSort GalleryEntry
    (fun x y => decide (orderKey y ≤ orderKey x))
    (fun x y z hxy hyz => by
      simp only [decide_eq_true_eq] at hxy hyz ⊢
      omega)
    (fun x y => by
      simp only [Bool.or_eq_true, decide_eq_true_eq]
      omega)
    l
  have hmem : A ∈ l.mergeSort (fun x y => decide (orderKey y ≤ orderKey x)) :=
    hperm.mem_iff.mpr hA
  cases hms : l.mergeSort (fun x y => decide (orderKey y ≤ orderKey x)) with
  | nil =>
    rw [hms] at hmem
    exact absurd hmem (List.not_mem_nil A)
  | cons h t =>
    rw [hms] at hmem hsorted hperm
    have hhl : h ∈ l := hperm.mem_iff.mp (List.mem_cons_self h t)
    have hhle : orderKey h ≤ orderKey A := hmax h hhl
    rcases List.mem_cons.mp hmem with rfl | hmemt
    · rfl
    · have hle := (List.pairwise_cons.mp hsorted).1 A hmemt
      simp only [decide_eq_true_eq] at hle
      have hkey : orderKey h = orderKey A := le_antisymm hhle hle
      rw [huniq h hhl hkey]
      simp

/-- C8.  For persisted entries A and B where A has the (unique) greatest
displayOrder strictly below B's, `moveImageOrderUp` on B issues exactly two
independent order-update calls swapping the two values, and applying those
updates leaves A with B's old order and B with A's old order. -/
theorem c8_move_up_swaps
    (g : List GalleryEntry) (A B : GalleryEntry) (a b : Int)
    (hA : A ∈ g) (hB : B ∈ g)
    (hAo : A.displayOrder = some a) (hBo : B.displayOrder = some b)
    (hab : a < b)
    (hmax : ∀ e ∈ g, ∀ o : Int, e.displayOrder = some o → o < b → o ≤ a)
    (huniq : ∀ e ∈ g, e.displayOrder = some a → e = A)
    (hids : (g.map (fun e => e.id)).Nodup) :
    moveImageOrderUp (some g) B.id (some b) = [(B.id, a), (A.id, b)]
    ∧ { A with displayOrder := some b }
        ∈ applyOrderUpdates g (moveImageOrderUp (some g) B.id (some b))
    ∧ { B with displayOrder := some a }
        ∈ applyOrderUpdates g (moveImageOrderUp (some g) B.id (some b)) := by
  have hAB : A ≠ B := by
    intro h
    have hBo2 := hAo
    rw [h, hBo] at hBo2
    simp only [Option.some.injEq] at hBo2
    omega
  have hidAB : A.id ≠ B.id := fun hid => hAB (List.inj_on_of_nodup_map hids hA hB hid)
  have hAFL : A ∈ g.filter (fun img =>
      img.displayOrder.isSome && decide ((img.displayOrder).getD 0 < b)) := by
    refine List.mem_filter.mpr ⟨hA, ?_⟩
    rw [hAo]
    simp [hab]
  have hmaxFL : ∀ e ∈ g.filter (fun img =>
      img.displayOrder.isSome && decide ((img.displayOrder).getD 0 < b)),
      orderKey e ≤ orderKey A := by
    intro e he
    rcases List.mem_filter.mp he with ⟨heg, hP⟩
    have hP2 : e.displayOrder.isSome = true ∧ (e.displayOrder).getD 0 < b := by
      simpa using hP
    rcases Option.isSome_iff_exists.mp hP2.1 with ⟨o, ho⟩
    have h2b := hP2.2
    rw [ho] at h2b
    simp only [Option.getD_some] at h2b
    have hoa : o ≤ a := hmax e heg o ho h2b
    unfold orderKey
    rw [ho, hAo]
    simpa using hoa
  have huniqFL : ∀ e ∈ g.filter (fun img =>
      img.displayOrder.isSome && decide ((img.displayOrder).getD 0 < b)),
      orderKey e = orderKey A → e = A := by
    intro e he heq
    rcases List.mem_filter.mp he with ⟨heg, hP⟩
    have hP2 : e.displayOrder.isSome = true ∧ (e.displayOrder).getD 0 < b := by
      simpa using hP
    rcases Option.isSome_iff_exists.mp hP2.1 with ⟨o, ho⟩
    unfold orderKey at heq
    rw [ho, hAo] at heq
    simp only [Option.getD_some] at heq
    exact huniq e heg (by rw [ho, heq])
  have hhead := mergeSort_desc_head _ A hAFL hmaxFL huniqFL
  have hcalls : moveImageOrderUp (some g) B.id (some b) = [(B.id, a), (A.id, b)] := by
    unfold moveImageOrderUp
    dsimp only
    cases hms : (g.filter (fun img =>
        img.displayOrder.isSome && decide ((img.displayOrder).getD 0 < b))).mergeSort
        (fun x y => decide (orderKey y ≤ orderKey x)) with
    | nil =>
      rw [hms] at hhead
      simp at hhead
    | cons tgt t =>
      rw [hms] at hhead
      simp only [List.head?_cons, Option.some.injEq] at hhead
      rw [hhead]
      simp [orderKey, hAo]
  refine ⟨hcalls, ?_, ?_⟩
  · rw [hcalls]
    have hstep : (fun e => if e.id = (A.id, b).1 then
          { e with displayOrder := some (A.id, b).2 } else e)
        ((fun e => if e.id = (B.id, a).1 then
          { e with displayOrder := some (B.id, a).2 } else e) A)
        = { A with displayOrder := some b } := by
      dsimp only
      rw [if_neg hidAB, if_pos rfl]
    have hmem2 := List.mem_map_of_mem (fun e => if e.id = (A.id, b).1 then
        { e with displayOrder := some (A.id, b).2 } else e)
      (List.mem_map_of_mem (fun e => if e.id = (B.id, a).1 then
        { e with displayOrder := some (B.id, a).2 } else e) hA)
    rw [hstep] at hmem2
    exact hmem2
  · rw [hcalls]
    have hstep : (fun e => if e.id = (A.id, b).1 then
          { e with displayOrder := some (A.id, b).2 } else e)
        ((fun e => if e.id = (B.id, a).1 then
          { e with displayOrder := some (B.id, a).2 } else e) B)
        = { B with displayOrder := some a } := by
      dsimp only
      rw [if_pos rfl]
      exact if_neg (fun h => hidAB h.symm)
    have hmem2 := List.mem_map_of_mem (fun e => if e.id = (A.id, b).1 then
        { e with displayOrder := some (A.id, b).2 } else e)
      (List.mem_map_of_mem (fun e => if e.id = (B.id, a).1 then
        { e with displayOrder := some (B.id, a).2 } else e) hB)
    rw [hstep] at hmem2
    exact hmem2

/-- Witness for C8: in the two-entry gallery with orders 2 and 5,
`moveImageOrderUp` on the order-5 entry issues the two swapping update
calls, after which A carries order 5 and B order 2. -/
theorem c8_witness :
    moveImageOrderUp (some galleryC8) 20 (some 5) = [(20, 2), (10, 5)]
    ∧ ({ id := 10, imageUrl := "a", caption := "", displayOrder := some 5,
          isFeature := false } : GalleryEntry)
        ∈ applyOrderUpdates galleryC8 (moveImageOrderUp (some galleryC8) 20 (some 5))
    ∧ ({ id := 20, imageUrl := "b", caption := "", displayOrder := some 2,
          isFeature := false } : GalleryEntry)
        ∈ applyOrderUpdates galleryC8 (moveImageOrderUp (some galleryC8) 20 (some 5)) := by
  have h := c8_move_up_swaps galleryC8
    { id := 10, imageUrl := "a", caption := "", displayOrder := some 2, isFeature := false }
    { id := 20, imageUrl := "b", caption := "", displayOrder := some 5, isFeature := false }
    2 5 (by decide) (by decide) rfl rfl (by decide)
    (by
      intro e he o ho hlt
      fin_cases he <;> simp_all)
    (by
      intro e he ho
      fin_cases he <;> simp_all)
    (by decide)
  exact h

/-- C10.  `moveImageOrderUp` (respectively `moveImageOrderDown`) issues no
update call when the current order is null, when the gallery is absent, or
when no persisted entry has a strictly lower (respectively strictly higher)
displayOrder; and applying an empty update list leaves every entry's
displayOrder unchanged. -/
theorem c10_move_noop :
    (∀ (gallery : Option (List GalleryEntry)) (id : Nat),
      moveImageOrderUp gallery id none = [] ∧ moveImageOrderDown gallery id none = [])
    ∧ (∀ (id : Nat) (currentOrder : Option Int),
      moveImageOrderUp none id currentOrder = [] ∧ moveImageOrderDown none id currentOrder = [])
    ∧ (∀ (g : List GalleryEntry) (id : Nat) (cur : Int),
        (∀ e ∈ g, ∀ o : Int, e.displayOrder = some o → ¬ o < cur) →
        moveImageOrderUp (some g) id (some cur) = [])
    ∧ (∀ (g : List GalleryEntry) (id : Nat) (cur : Int),
        (∀ e ∈ g, ∀ o : Int, e.displayOrder = some o → ¬ cur < o) →
        moveImageOrderDown (some g) id (some cur) = [])
    ∧ (∀ (g : List GalleryEntry), applyOrderUpdates g [] = g) := by
  refine ⟨?_, ?_, ?_, ?_, fun g => rfl⟩
  · intro gallery id
    cases gallery <;> exact ⟨rfl, rfl⟩
  · intro id currentOrder
    exact ⟨rfl, rfl⟩
  · intro g id cur h
    unfold moveImageOrderUp
    dsimp only
    have hf : g.filter (fun img =>
        img.displayOrder.isSome && decide ((img.displayOrder).getD 0 < cur)) = [] := by
      refine List.filter_eq_nil_iff.mpr ?_
      intro e he hP
      have hP2 : e.displayOrder.isSome = true ∧ (e.displayOrder).getD 0 < cur := by
        simpa using hP
      rcases Option.isSome_iff_exists.mp hP2.1 with ⟨o, ho⟩
      have h2b := hP2.2
      rw [ho] at h2b
      simp only [Option.getD_some] at h2b
      exact h e he o ho h2b
    rw [hf, List.mergeSort_nil]
  · intro g id cur h
    unfold moveImageOrderDown
    dsimp only
    have hf : g.filter (fun img =>
        img.displayOrder.isSome && decide (cur < (img.displayOrder).getD 0)) = [] := by
      refine List.filter_eq_nil_iff.mpr ?_
      intro e he hP
      have hP2 : e.displayOrder.isSome = true ∧ cur < (e.displayOrder).getD 0 := by
        simpa using hP
      rcases Option.isSome_iff_exists.mp hP2.1 with ⟨o, ho⟩
      have h2b := hP2.2
      rw [ho] at h2b
      simp only [Option.getD_some] at h2b
      exact h e he o ho h2b
    rw [hf, List.mergeSort_nil]

/-- Witness for C10: with orders 2 and 5, moving the order-2 entry up and
the order-5 entry down are both no-ops. -/
theorem c10_witness :
    moveImageOrderUp (some galleryC8) 10 (some 2) = []
    ∧ moveImageOrderDown (some galleryC8) 20 (some 5) = [] :=
  ⟨c10_move_noop.2.2.1 galleryC8 10 2 (by
      intro e he o ho hlt
      fin_cases he <;> simp_all <;> omega),
   c10_move_noop.2.2.2.1 galleryC8 20 5 (by
      intro e he o ho hlt
      fin_cases he <;> simp_all <;> omega)⟩

end ArcemGallery

namespace ArcemBlog

lemma cleanupUncommittedFilesAt_log_guarded (snap cur : BlogState) (path : CleanupPath)
    (ok : Bool) :
    ∀ item ∈ (cleanupUncommittedFilesAt snap cur path ok).2, cleanupGuarded item := by
  intro item hitem
  unfold cleanupUncommittedFilesAt at hitem
  by_cases h : snap.uploadSession ≠ "" ∧ snap.isCommitted = false
      ∧ snap.uploadedFiles.length > 0
  · rw [if_pos h] at hitem
    dsimp only at hitem
    have hitem2 : item = LogItem.cleanup path snap.uploadSession
        (blogCleanupPreserve snap.gallery) snap.uploadedFiles snap.isCommitted := by
      cases ok
      · simpa using hitem
      · simpa using hitem
    subst hitem2
    exact ⟨h.1, h.2.1, List.length_pos.mp h.2.2⟩
  · rw [if_neg h] at hitem
    simp at hitem

lemma cleanupUncommittedFiles_log_guarded (s : BlogState) (path : CleanupPath) (ok : Bool) :
    ∀ item ∈ (cleanupUncommittedFiles s path ok).2, cleanupGuarded item :=
  fun item hitem => cleanupUncommittedFilesAt_log_guarded s s path ok item hitem

lemma dialogCloseEffect_log_guarded (s : BlogState) (ok : Bool) :
    ∀ item ∈ (dialogCloseEffect s ok).2, cleanupGuarded item := by
  intro item hitem
  unfold dialogCloseEffect at hitem
  by_cases h : s.addDialogOpen = false ∧ s.uploadSession ≠ "" ∧ s.isCommitted = false
      ∧ s.uploadedFiles.length > 0
  · rw [if_pos h] at hitem
    exact cleanupUncommittedFiles_log_guarded s .dialogClose ok item hitem
  · rw [if_neg h] at hitem
    simp at hitem

lemma handleFileUploadComplete_log_guarded (s : BlogState) (fileUrls : List String)
    (sessionId : Option String) (addOks : List Bool) (commitOk cleanupOk : Bool) :
    ∀ item ∈ (handleFileUploadComplete s fileUrls sessionId addOks commitOk cleanupOk).2,
      cleanupGuarded item := by
  intro item hitem
  unfold handleFileUploadComplete at hitem
  cases sessionId with
  | none =>
    try dsimp only at hitem
    by_cases h0 : fileUrls.length = 0
    · rw [if_pos h0] at hitem
      simp at hitem
    · rw [if_neg h0] at hitem
      try dsimp only at hitem
      by_cases hadd : (runBlogAdds s.captionInput fileUrls addOks s.gallery).2 = true
      · rw [if_pos hadd] at hitem
        by_cases hc : commitOk = true
        · subst hc
          rw [if_pos rfl] at hitem
          have : item = LogItem.commit s.uploadSession fileUrls true := by
            simpa using hitem
          subst this
          trivial
        · have hcf : commitOk = false := by
            cases commitOk
            · rfl
            · exact absurd rfl hc
          subst hcf
          rw [if_neg (by simp)] at hitem
          rcases List.mem_cons.mp hitem with h | h
          · subst h; trivial
          · exact cleanupUncommittedFilesAt_log_guarded _ _ _ _ item h
      · rw [if_neg hadd] at hitem
        exact cleanupUncommittedFilesAt_log_guarded _ _ _ _ item hitem
  | some sid =>
    try dsimp only at hitem
    by_cases hsid : sid = ""
    · rw [if_pos hsid] at hitem
      try dsimp only at hitem
      by_cases h0 : fileUrls.length = 0
      · rw [if_pos h0] at hitem
        simp at hitem
      · rw [if_neg h0] at hitem
        try dsimp only at hitem
        by_cases hadd : (runBlogAdds s.captionInput fileUrls addOks s.gallery).2 = true
        · rw [if_pos hadd] at hitem
          by_cases hc : commitOk = true
          · subst hc
            rw [if_pos rfl] at hitem
            have : item = LogItem.commit s.uploadSession fileUrls true := by
              simpa using hitem
            subst this
            trivial
          · have hcf : commitOk = false := by
              cases commitOk
              · rfl
              · exact absurd rfl hc
            subst hcf
            rw [if_neg (by simp)] at hitem
            rcases List.mem_cons.mp hitem with h | h
            · subst h; trivial
            · exact cleanupUncommittedFilesAt_log_guarded _ _ _ _ item h
        · rw [if_neg hadd] at hitem
          exact cleanupUncommittedFilesAt_log_guarded _ _ _ _ item hitem
    · rw [if_neg hsid] at hitem
      try dsimp only at hitem
      by_cases h0 : fileUrls.length = 0
      · rw [if_pos h0] at hitem
        simp at hitem
      · rw [if_neg h0] at hitem
        try dsimp only at hitem
        by_cases hadd : (runBlogAdds s.captionInput fileUrls addOks s.gallery).2 = true
        · rw [if_pos hadd] at hitem
          by_cases hc : commitOk = true
          · subst hc
            rw [if_pos rfl] at hitem
            have : item = LogItem.commit sid fileUrls true := by
              simpa using hitem
            subst this
            trivial
          · have hcf : commitOk = false := by
              cases commitOk
              · rfl
              · exact absurd rfl hc
            subst hcf
            rw [if_neg (by simp)] at hitem
            rcases List.mem_cons.mp hitem with h | h
            · subst h; trivial
            · exact cleanupUncommittedFilesAt_log_guarded _ _ _ _ item h
        · rw [if_neg hadd] at hitem
          exact cleanupUncommittedFilesAt_log_guarded _ _ _ _ item hitem

lemma blogStep_log_guarded (s : BlogState) (e : BlogEvent) :
    ∀ item ∈ (blogStep s e).2, cleanupGuarded item := by
  intro item hitem
  cases e with
  | openDialog =>
    simp [blogStep] at hitem
  | closeDialog ok =>
    exact dialogCloseEffect_log_guarded _ ok item (by simpa [blogStep] using hitem)
  | uploadComplete fileUrls sessionId addOks commitOk cleanupOk =>
    unfold blogStep at hitem
    dsimp only at hitem
    rcases List.mem_append.mp hitem with h | h
    · exact handleFileUploadComplete_log_guarded _ _ _ _ _ _ item h
    · exact dialogCloseEffect_log_guarded _ _ item h
  | unmount ok =>
    exact cleanupUncommittedFiles_log_guarded s .unmountPath ok item
      (by simpa [blogStep] using hitem)

/-- C9 (amended).  Every cleanup call ever issued by the blog gallery
manager — on any event trace, from any state, through the dialog-close
effect, the unmount effect, or the error handler — is issued at a moment
when a session is tracked, the committed flag is down, and the uploaded-file
list is nonempty.  (The stronger reading of the claim, that a session once
committed is never cleaned up again, fails: a later upload resets the
committed flag while keeping the tracked session — see the counterexample.) -/
theorem c9_cleanup_guard (s : BlogState) (events : List BlogEvent) :
    ∀ item ∈ (blogRun s events).2, cleanupGuarded item := by
  induction events generalizing s with
  | nil =>
    intro item hitem
    simp [blogRun] at hitem
  | cons e rest ih =>
    intro item hitem
    unfold blogRun at hitem
    dsimp only at hitem
    rcases List.mem_append.mp hitem with h | h
    · exact blogStep_log_guarded s e item h
    · exact ih (blogStep s e).1 item h

/-- Witness for C9: the dialog-close cleanup call of the counterexample
trace satisfies the guard facts. -/
theorem c9_witness :
    cleanupGuarded (LogItem.cleanup CleanupPath.dialogClose "s" ["u1"] ["u2"] false) :=
  c9_cleanup_guard blogStart blogEvsC9
    (LogItem.cleanup CleanupPath.dialogClose "s" ["u1"] ["u2"] false) (by decide)

/-- C9 counterexample.  On the trace `blogEvsC9` the session `"s"` is
successfully committed by the first upload, yet a later dialog-close cleanup
call targets that same session: the failed second upload reset the committed
flag while keeping `"s"` tracked (its own catch-path cleanup never fires,
because that closure still reads the committed snapshot), so dismissing the
dialog runs the dialog-close effect against the live uncommitted state.  The
claim that a session once marked committed is never cleaned up by the
dialog-close or unmount paths is therefore false. -/
theorem c9_counterexample :
    (blogRun blogStart blogEvsC9).2
      = [ LogItem.commit "s" ["u1"] true,
          LogItem.cleanup CleanupPath.dialogClose "s" ["u1"] ["u2"] false ]
    ∧ noCleanupAfterCommit [] (blogRun blogStart blogEvsC9).2 = false := by
  decide

end ArcemBlog
